import Mathlib

/-!
A verification development for the `financier` repository, which contains two
Python scripts: `fake_cryptominer.py` (a simulated cryptocurrency miner with
Slack webhook reporting) and `amplify-sim.py` (a simulated AWS Amplify build
pipeline with Cloudflare webhook reporting).

The scripts are shallowly embedded: every random draw the Python code makes
(`random.random()`, `random.randint`, `random.uniform`, `uuid` hex strings) is
an explicit input to the Lean function modelling that piece of code; HTTP
delivery outcomes are an explicit oracle; each side effect (log line, sleep,
webhook POST) becomes an element of an explicit event trace.  `random.random()`
draws are modelled as unconstrained rationals (the code only compares them
against fixed thresholds), and `random.randint(a, b)` is modelled as
`a + r % (b - a + 1)` for a raw draw `r`, which has exactly the range `[a, b]`.
-/

/-- Outcome of one HTTP POST attempt (`requests.post` in the source): either a
response with a status code and body text, or a raised transport exception. -/
inductive TransportResult where
  | status (code : Nat) (text : String)
  | err (msg : String)
deriving DecidableEq

/-- `TransportResult.isFailure r` states that `r` is a delivery failure in the
sense of the spec: a non-2xx response or a transport exception. -/
def TransportResult.isFailure : TransportResult → Prop
  | .status code _ => code < 200 ∨ 300 ≤ code
  | .err _ => True

instance (r : TransportResult) : Decidable r.isFailure := by
  cases r with
  | status code text => exact inferInstanceAs (Decidable (code < 200 ∨ 300 ≤ code))
  | err msg => exact inferInstanceAs (Decidable True)

/- ------------------------------------------------------------------------
`fake_cryptominer.py`
------------------------------------------------------------------------ -/

/-- The three share counters of `FakeMiner` (`fake_cryptominer.py` lines 62-64:
`self.shares_found = 0`, `self.shares_accepted = 0`, `self.shares_rejected = 0`). -/
structure MinerShares where
  shares_found : Nat
  shares_accepted : Nat
  shares_rejected : Nat
deriving DecidableEq

/-- The counters as initialised in `FakeMiner.__init__` (all zero). -/
def initShares : MinerShares := ⟨0, 0, 0⟩

/-- `FakeMiner._found_share` (lines 487-497): increments `shares_found`, then
draws `random.random()` and accepts the share when the draw is below `0.95`
(incrementing `shares_accepted`), otherwise rejects it (incrementing
`shares_rejected`).  `r` is the raw `random.random()` draw. -/
def found_share (r : ℚ) (s : MinerShares) : MinerShares :=
  if r < 95/100 then
    ⟨s.shares_found + 1, s.shares_accepted + 1, s.shares_rejected⟩
  else
    ⟨s.shares_found + 1, s.shares_accepted, s.shares_rejected + 1⟩

/-- The share-counter invariant stated by the spec:
`shares_accepted + shares_rejected = shares_found`. -/
def sharesInv (s : MinerShares) : Prop :=
  s.shares_accepted + s.shares_rejected = s.shares_found

/-- Command-line / environment configuration of `fake_cryptominer.py`
(`parse_arguments`, lines 521-559). -/
structure MinerArgs where
  slack_webhook_url : String
  beacon_interval : Nat
  algo : String
  wallet : String
  worker : String
  threads : Nat
  use_gpu : Bool
  intensity : Nat
deriving DecidableEq

/-- Kinds of operations `fake_cryptominer.py` performs, used to compare the
control flow (the sequence and kinds of operations) of two runs. -/
inductive Op where
  | logLine
  | sleepFor (seconds : Nat)
  | fileWrite
  | spawnThread
  | keepAlive
deriving DecidableEq

/-- `FakeMiner._start_cpu_simulation` (lines 212-221): one log line, then for
each of `threads` iterations a thread start and a log line. -/
def cpuSimOps (threads : Nat) : List Op :=
  Op.logLine :: (List.range threads).foldr
    (fun _ acc => Op.spawnThread :: Op.logLine :: acc) []

/-- `FakeMiner.start` (lines 178-210) as a sequence of operation kinds:
five log lines; when `use_gpu` is set, a GPU-check block of four extra log
lines and two extra sleeps (lines 190-196); then the CPU simulation startup,
the Slack-reporting startup (`_start_slack_reporting`: spawn + log), the
progress-reporting startup (`_start_progress_reporting`: spawn), and the
keep-alive loop. -/
def startOps (a : MinerArgs) : List Op :=
  [Op.logLine, Op.logLine, Op.logLine, Op.logLine, Op.logLine] ++
  (if a.use_gpu then
    [Op.logLine, Op.sleepFor 1, Op.logLine, Op.logLine, Op.sleepFor 3, Op.logLine]
   else []) ++
  cpuSimOps a.threads ++
  [Op.spawnThread, Op.logLine] ++
  [Op.spawnThread] ++
  [Op.keepAlive]

/-- `FakeMiner._setup_directories` and `_create_config_files` (lines 79-176):
three directory creations, the JSON config write, the fake `xmrig` binary
write plus its `chmod`, the AWS-style HTML file write, and one log line. -/
def setupOps : List Op :=
  [Op.fileWrite, Op.fileWrite, Op.fileWrite, Op.fileWrite, Op.fileWrite,
   Op.fileWrite, Op.fileWrite, Op.logLine]

/-- Process termination status for the miner's `__main__` block. -/
inductive MinerTerm where
  | exit1
  | running
deriving DecidableEq

/-- The `__main__` block of `fake_cryptominer.py` (lines 562-573): after
argument parsing, if the Slack webhook URL is empty the process logs an error
and exits with status 1 before constructing the miner; otherwise it constructs
`FakeMiner` (filesystem setup) and calls `start`. -/
def minerMain (a : MinerArgs) : List Op × MinerTerm :=
  if a.slack_webhook_url = "" then ([Op.logLine], MinerTerm.exit1)
  else (setupOps ++ startOps a, MinerTerm.running)

/-- `FakeMiner._send_slack_report` (lines 289-346): the POST outcome is checked
with `if response.status_code != 200`, logging an error message on a non-200
status; a raised exception is caught and logged.  This function returns `true`
exactly when the code takes the success branch; every other outcome is logged
and swallowed (the Python function returns `None` in all cases and never
raises). -/
def send_slack_report_ok (r : TransportResult) : Bool :=
  match r with
  | .status code _ => code == 200
  | .err _ => false

/- ------------------------------------------------------------------------
`amplify-sim.py`: events and the build-cycle trace
------------------------------------------------------------------------ -/

/-- The footer data `send_webhook` embeds in every payload
(`amplify-sim.py` line 97: `f"App: {APP_ID} | Build: {BUILD_ID} | Instance:
{INSTANCE_ID}"`). -/
structure Footer where
  appId : String
  buildId : String
  instanceId : String
deriving DecidableEq

/-- The distinct webhook messages `amplify-sim.py` sends, classified by call
site, carrying the data that varies between sends.  `miningStatus sa sf` and
`miningCompleted sa sf` carry the `shares_accepted`/`shares_found` counters
formatted into those payloads. -/
inductive Kind where
  | buildStarted (buildId : String)
  | stageStarted (stage : String)
  | stageCompleted (stage : String)
  | miningStarted
  | miningStatus (sa sf : Nat)
  | miningCompleted (sa sf : Nat)
  | buildCompleted (buildId : String) (url : String)
  | credLeak
  | buildLogs
  | simulationError (e : String)
  | simulationStopped
deriving DecidableEq

/-- An observable event of `amplify-sim.py`: a `log(...)` line, a `time.sleep`,
an attempted webhook POST (`send_webhook`), or the log line `send_webhook`
itself emits after the POST returns (success or failure). -/
inductive Ev where
  | log (msg : String)
  | sleep (d : ℚ)
  | post (f : Footer) (k : Kind)
  | sendlog (r : TransportResult)
deriving DecidableEq

/-- `random.randint(a, b)` (inclusive on both ends) applied to a raw draw `r`. -/
def randint (a b r : Nat) : Nat := a + r % (b - a + 1)

/-- The per-stage duration expression of `simulate_build_process` (line 133):
`random.randint(30, 90) if stage == "BUILD" else random.randint(10, 30)`. -/
def stageDuration (stage : String) (r : Nat) : Nat :=
  if stage == "BUILD" then randint 30 90 r else randint 10 30 r

/-- The spec-side lower bound of a stage's configured duration range. -/
def stageLo (stage : String) : Nat := if stage == "BUILD" then 30 else 10

/-- The spec-side upper bound of a stage's configured duration range. -/
def stageHi (stage : String) : Nat := if stage == "BUILD" then 90 else 30

/-- The raw random draws consumed by one iteration of the `simulate_mining`
loop (lines 171-212): the share draw (`random.random() < 0.3`), the status
draw (`random.random() < 0.2`), and the sleep duration
(`random.uniform(5, 10)`). -/
structure Tick where
  shareDraw : ℚ
  notifyDraw : ℚ
  sleepDraw : ℚ
deriving DecidableEq

/-- One iteration of the `simulate_mining` while-loop body (lines 171-212),
given the current counters: with probability 0.3 a share is found (both
`shares_found` and `shares_accepted` increment — the loop has no rejection
branch — and a log line is emitted); with independent probability 0.2 a status
webhook is posted (reading the just-updated counters); then the loop sleeps.
Returns the iteration's events and the updated `(shares_found,
shares_accepted)`. -/
def miningStep (f : Footer) (tk : Tick) (sf sa : Nat) : List Ev × Nat × Nat :=
  let sf' := if tk.shareDraw < 3/10 then sf + 1 else sf
  let sa' := if tk.shareDraw < 3/10 then sa + 1 else sa
  let foundEvs := if tk.shareDraw < 3/10 then
      [Ev.log ("Found share: " ++ toString sa' ++ "/" ++ toString sf')] else []
  let statEvs := if tk.notifyDraw < 2/10 then
      [Ev.post f (Kind.miningStatus sa' sf')] else []
  (foundEvs ++ statEvs ++ [Ev.sleep tk.sleepDraw], sf', sa')

/-- The `simulate_mining` while-loop (line 171: `while time.time() - start_time
< duration`), with elapsed time `t` threaded explicitly and the random stream
given as a finite list of per-iteration draws (the loop also stops if the
supplied stream runs out).  Returns the emitted events and the final
`(shares_found, shares_accepted)` counters. -/
def miningLoop (f : Footer) (duration t : ℚ) (sf sa : Nat) :
    List Tick → List Ev × Nat × Nat
  | [] => ([], sf, sa)
  | tk :: rest =>
    if t < duration then
      let s := miningStep f tk sf sa
      let r := miningLoop f duration (t + tk.sleepDraw) s.2.1 s.2.2 rest
      (s.1 ++ r.1, r.2)
    else ([], sf, sa)

/-- `simulate_mining` (lines 157-240): posts "Mining started during BUILD
phase", runs the mining loop with both counters starting at 0, then posts the
final "Mining completed" report carrying the final counters.  (The simulated
hashrate, a `random.uniform(10, 25) * cpu_count` value only formatted into
payload text, is not tracked.) -/
def simulate_mining (f : Footer) (duration : ℚ) (tks : List Tick) : List Ev :=
  let r := miningLoop f duration 0 0 0 tks
  Ev.post f Kind.miningStarted :: (r.1 ++ [Ev.post f (Kind.miningCompleted r.2.2 r.2.1)])

/-- One iteration of the stage loop of `simulate_build_process` (lines
129-146): draw the stage duration, log the entry line, post "Stage started",
run `simulate_mining` for the `"BUILD"` stage or just sleep otherwise, and
post "Stage completed". -/
def stageStep (f : Footer) (stage : String) (durDraw : Nat) (tks : List Tick) :
    List Ev :=
  let duration := stageDuration stage durDraw
  [Ev.log ("Entering stage: " ++ stage ++ " (estimated duration: " ++
     toString duration ++ "s)"),
   Ev.post f (Kind.stageStarted stage)] ++
  (if stage == "BUILD" then simulate_mining f (duration : ℚ) tks
   else [Ev.sleep (duration : ℚ)]) ++
  [Ev.post f (Kind.stageCompleted stage)]

/-- The `for i, stage in enumerate(AMPLIFY_STAGES)` loop of
`simulate_build_process`, with the per-stage duration draws and mining ticks
indexed by the stage's position `i`. -/
def stagesLoop (f : Footer) (durDraws : Nat → Nat) (tks : Nat → List Tick) :
    Nat → List String → List Ev
  | _, [] => []
  | i, stage :: rest =>
    stageStep f stage (durDraws i) (tks i) ++ stagesLoop f durDraws tks (i + 1) rest

/-- The fixed stage list (`amplify-sim.py` line 44). -/
def AMPLIFY_STAGES : List String :=
  ["PROVISIONING", "DOWNLOAD_SOURCE", "BUILD", "DEPLOY", "VERIFY"]

/-- `simulate_build_process` (lines 121-155): the initial "Build started"
report, the stage loop, and the final "Build completed" report whose
"Build URL" field is `f"https://{AMPLIFY_DOMAIN}"`. -/
def simulate_build_process (f : Footer) (domain : String) (stages : List String)
    (durDraws : Nat → Nat) (tks : Nat → List Tick) : List Ev :=
  [Ev.post f (Kind.buildStarted f.buildId)] ++
  stagesLoop f durDraws tks 0 stages ++
  [Ev.post f (Kind.buildCompleted f.buildId ("https://" ++ domain))]

/- ------------------------------------------------------------------------
`amplify-sim.py`: `send_webhook` delivery handling
------------------------------------------------------------------------ -/

/-- The return value of `send_webhook` (lines 104-119): `True` exactly when
`response.status_code == 200`; every non-200 status and every caught exception
is logged and `False` is returned (the function never raises). -/
def send_webhook_result (r : TransportResult) : Bool :=
  match r with
  | .status code _ => code == 200
  | .err _ => false

/-- No caller of `send_webhook` in `amplify-sim.py` uses its return value, so
delivery outcomes never feed back into control flow.  `applyNet net n evs`
therefore attaches to each attempted POST of a trace the log line
`send_webhook` emits for the outcome `net` assigns to that POST (counting
POSTs from `n`). -/
def applyNet (net : Nat → TransportResult) : Nat → List Ev → List Ev
  | _, [] => []
  | n, Ev.post f k :: rest => Ev.post f k :: Ev.sendlog (net n) :: applyNet net (n + 1) rest
  | n, Ev.log m :: rest => Ev.log m :: applyNet net n rest
  | n, Ev.sleep d :: rest => Ev.sleep d :: applyNet net n rest
  | n, Ev.sendlog r :: rest => Ev.sendlog r :: applyNet net n rest

/- ------------------------------------------------------------------------
`amplify-sim.py`: `main` and the outer loop
------------------------------------------------------------------------ -/

/-- How one pass through the body of `main`'s `try` block ends: normal
completion, an unexpected exception (caught by `except Exception`), or a
`KeyboardInterrupt`. -/
inductive CycleOutcome where
  | ok
  | exc (e : String)
  | interrupt
deriving DecidableEq

/-- Process status after `amplifyMain`: exited with status 1 (missing URL),
returned from `main` (after a caught exception or interrupt), or still inside
the infinite loop when the modelling fuel ran out. -/
inductive AmpTerm where
  | exit1
  | returned
  | outOfFuel
deriving DecidableEq

/-- The whole input of one `amplify-sim.py` run: the configuration read at
module load (lines 31-40), the identifier draws (lines 38-40 and 326), and the
random draws consumed by each cycle.  `newBuildId i` is the fresh `BUILD_ID`
generated before cycle `i ≥ 1` (line 326); `exnCut i` is how many events cycle
`i` has emitted when the injected exception or interrupt is raised. -/
structure AmpEnv where
  url : String
  instanceId : String
  buildId0 : String
  appId : String
  newBuildId : Nat → String
  credDraw : ℚ
  waitDraws : Nat → Nat
  durDraws : Nat → Nat → Nat
  ticks : Nat → Nat → List Tick
  outcome : Nat → CycleOutcome
  exnCut : Nat → Nat

/-- `AMPLIFY_DOMAIN` (line 43): computed once at module load from the initial
`BUILD_ID`, and never recomputed. -/
def ampDomain (env : AmpEnv) : String := env.buildId0 ++ ".amplifyapp.com"

/-- The footer in effect during cycle `i`: `APP_ID` and `INSTANCE_ID` are
module-load constants, while `BUILD_ID` is regenerated before every cycle
after the first (line 326). -/
def footerAt (env : AmpEnv) (i : Nat) : Footer :=
  ⟨env.appId, if i = 0 then env.buildId0 else env.newBuildId i, env.instanceId⟩

/-- The events of cycle `i` of `main`'s loop: for `i ≥ 1` the wait log, the
30-60 minute sleep (line 320: `random.randint(1800, 3600)`), and the "Starting
new build" log; then `simulate_build_process` and the one webhook of
`simulate_amplify_build_logs` (lines 264-292). -/
def cycleEvs (env : AmpEnv) (i : Nat) : List Ev :=
  (if i = 0 then [] else
    [Ev.log ("Waiting for " ++ toString (randint 1800 3600 (env.waitDraws i)) ++
       " seconds before next build..."),
     Ev.sleep ((randint 1800 3600 (env.waitDraws i) : Nat) : ℚ),
     Ev.log ("Starting new build: " ++ (footerAt env i).buildId)]) ++
  simulate_build_process (footerAt env i) (ampDomain env) AMPLIFY_STAGES
    (env.durDraws i) (env.ticks i) ++
  [Ev.post (footerAt env i) Kind.buildLogs]

/-- The `try` block of `main` (lines 310-339): cycle 0 runs first, then the
`while True` loop runs further cycles.  A cycle whose outcome is an exception
emits a prefix of its events, then the `except Exception` handler's log line
and best-effort "Simulation error" webhook, and `main` returns; a
`KeyboardInterrupt` likewise runs its handler and returns.  `fuel` bounds how
many cycles of the infinite loop are unfolded. -/
def runCycles (env : AmpEnv) : Nat → Nat → List Ev × AmpTerm
  | _, 0 => ([], AmpTerm.outOfFuel)
  | i, fuel + 1 =>
    match env.outcome i with
    | .ok =>
      let r := runCycles env (i + 1) fuel
      (cycleEvs env i ++ r.1, r.2)
    | .exc e =>
      ((cycleEvs env i).take (env.exnCut i) ++
        [Ev.log ("Error in simulation: " ++ e),
         Ev.post (footerAt env i) (Kind.simulationError e)],
       AmpTerm.returned)
    | .interrupt =>
      ((cycleEvs env i).take (env.exnCut i) ++
        [Ev.log "Simulation interrupted, shutting down...",
         Ev.post (footerAt env i) Kind.simulationStopped],
       AmpTerm.returned)

/-- `simulate_aws_credentials` (lines 242-262): with probability 0.1, a log
line and a "Build environment contains AWS credentials" webhook. -/
def credEvs (env : AmpEnv) : List Ev :=
  if env.credDraw < 1/10 then
    [Ev.log "Simulating AWS credential leak (for security testing)",
     Ev.post (footerAt env 0) Kind.credLeak]
  else []

/-- `main` (lines 294-339): if `CLOUDFLARE_WEBHOOK_URL` is empty the process
logs an error and exits with status 1 before any webhook is attempted;
otherwise five startup log lines, `simulate_aws_credentials`, and the cycle
loop. -/
def amplifyMain (env : AmpEnv) (fuel : Nat) : List Ev × AmpTerm :=
  if env.url = "" then
    ([Ev.log "Error: CLOUDFLARE_WEBHOOK_URL environment variable is required"],
     AmpTerm.exit1)
  else
    let r := runCycles env 0 fuel
    ([Ev.log "Starting AWS amplify cryptomining simulation",
      Ev.log "Worker", Ev.log ("Instance ID: " ++ env.instanceId),
      Ev.log ("Build ID: " ++ env.buildId0), Ev.log ("App ID: " ++ env.appId)] ++
     credEvs env ++ r.1, r.2)

/- ------------------------------------------------------------------------
Trace projections
------------------------------------------------------------------------ -/

/-- The attempted webhook POSTs of a trace, with their footers. -/
def posts (l : List Ev) : List (Footer × Kind) :=
  l.filterMap fun e => match e with
    | Ev.post f k => some (f, k)
    | _ => none

/-- The kinds of POSTs `simulate_mining` makes: these are the notifications
emitted strictly inside the work stage. -/
def miningKind (k : Kind) : Bool :=
  match k with
  | Kind.miningStarted => true
  | Kind.miningStatus _ _ => true
  | Kind.miningCompleted _ _ => true
  | _ => false

/-- Whether a POST kind is a stage-boundary notification. -/
def boundaryKind (k : Kind) : Bool :=
  match k with
  | Kind.stageStarted _ => true
  | Kind.stageCompleted _ => true
  | _ => false

/-- Whether a POST kind is a cycle-completion ("Build completed") notification. -/
def completionKind (k : Kind) : Bool :=
  match k with
  | Kind.buildCompleted _ _ => true
  | _ => false

/-- Whether a POST kind is a cycle-start ("Build started") notification. -/
def cycleStartKind (k : Kind) : Bool :=
  match k with
  | Kind.buildStarted _ => true
  | _ => false

/-- Whether a POST kind is a "Simulation error" notification. -/
def errorKind (k : Kind) : Bool :=
  match k with
  | Kind.simulationError _ => true
  | _ => false

/-- The stage-boundary events of a trace, in order: `(true, s)` for a
"Stage started: s" POST and `(false, s)` for a "Stage completed: s" POST. -/
def stageEvents (l : List Ev) : List (Bool × String) :=
  (posts l).filterMap fun p => match p.2 with
    | Kind.stageStarted s => some (true, s)
    | Kind.stageCompleted s => some (false, s)
    | _ => none

/-- The "Build URL" field values of the cycle-completion POSTs of a trace. -/
def completedUrls (l : List Ev) : List String :=
  (posts l).filterMap fun p => match p.2 with
    | Kind.buildCompleted _ url => some url
    | _ => none

/-- The build identifiers of the cycle-completion POSTs of a trace. -/
def completedIds (l : List Ev) : List String :=
  (posts l).filterMap fun p => match p.2 with
    | Kind.buildCompleted bid _ => some bid
    | _ => none

/-- How many cycle-start ("Build started") POSTs a trace contains. -/
def cycleStartCount (l : List Ev) : Nat :=
  (posts l).countP fun p => cycleStartKind p.2

/-- How many "Simulation error" POSTs a trace contains. -/
def errorPostCount (l : List Ev) : Nat :=
  (posts l).countP fun p => errorKind p.2

/-- Whether an event is the failure log line `send_webhook` emits when a POST
does not come back with status 200. -/
def isFailLog (e : Ev) : Bool :=
  match e with
  | Ev.sendlog r => !send_webhook_result r
  | _ => false

/-- How many send-failure log lines a trace contains. -/
def failLogCount (l : List Ev) : Nat := l.countP isFailLog

/- ------------------------------------------------------------------------
Helper lemmas about the trace projections
------------------------------------------------------------------------ -/

@[simp] theorem posts_nil : posts [] = [] := rfl

@[simp] theorem posts_append (l₁ l₂ : List Ev) :
    posts (l₁ ++ l₂) = posts l₁ ++ posts l₂ :=
  List.filterMap_append _ _ _

@[simp] theorem posts_cons_log (m : String) (l : List Ev) :
    posts (Ev.log m :: l) = posts l := rfl

@[simp] theorem posts_cons_sleep (d : ℚ) (l : List Ev) :
    posts (Ev.sleep d :: l) = posts l := rfl

@[simp] theorem posts_cons_post (f : Footer) (k : Kind) (l : List Ev) :
    posts (Ev.post f k :: l) = (f, k) :: posts l := rfl

@[simp] theorem posts_cons_sendlog (r : TransportResult) (l : List Ev) :
    posts (Ev.sendlog r :: l) = posts l := rfl

@[simp] theorem stageEvents_append (l₁ l₂ : List Ev) :
    stageEvents (l₁ ++ l₂) = stageEvents l₁ ++ stageEvents l₂ := by
  simp [stageEvents, List.filterMap_append]

@[simp] theorem completedUrls_append (l₁ l₂ : List Ev) :
    completedUrls (l₁ ++ l₂) = completedUrls l₁ ++ completedUrls l₂ := by
  simp [completedUrls, List.filterMap_append]

@[simp] theorem completedIds_append (l₁ l₂ : List Ev) :
    completedIds (l₁ ++ l₂) = completedIds l₁ ++ completedIds l₂ := by
  simp [completedIds, List.filterMap_append]

@[simp] theorem cycleStartCount_append (l₁ l₂ : List Ev) :
    cycleStartCount (l₁ ++ l₂) = cycleStartCount l₁ + cycleStartCount l₂ := by
  simp [cycleStartCount, List.countP_append]

@[simp] theorem errorPostCount_append (l₁ l₂ : List Ev) :
    errorPostCount (l₁ ++ l₂) = errorPostCount l₁ + errorPostCount l₂ := by
  simp [errorPostCount, List.countP_append]

@[simp] theorem failLogCount_append (l₁ l₂ : List Ev) :
    failLogCount (l₁ ++ l₂) = failLogCount l₁ + failLogCount l₂ := by
  simp [failLogCount, List.countP_append]

/-- The POSTs of one mining-loop iteration carry the ambient footer and a
mining kind. -/
theorem miningStep_posts_mem (f : Footer) (tk : Tick) (sf sa : Nat) :
    ∀ p ∈ posts (miningStep f tk sf sa).1, p.1 = f ∧ miningKind p.2 = true := by
  intro p hp
  simp only [miningStep] at hp
  split at hp <;> split at hp <;> simp_all [posts, miningKind]

/-- The POSTs of the mining loop carry the ambient footer and a mining kind. -/
theorem miningLoop_posts_mem (f : Footer) (d : ℚ) :
    ∀ (tks : List Tick) (t : ℚ) (sf sa : Nat),
      ∀ p ∈ posts (miningLoop f d t sf sa tks).1,
        p.1 = f ∧ miningKind p.2 = true := by
  intro tks
  induction tks with
  | nil => intro t sf sa p hp; simp [miningLoop] at hp
  | cons tk rest ih =>
    intro t sf sa p hp
    simp only [miningLoop] at hp
    split at hp
    · rw [posts_append] at hp
      rcases List.mem_append.mp hp with h | h
      · exact miningStep_posts_mem f tk sf sa p h
      · exact ih _ _ _ p h
    · simp [posts] at hp

/-- The POSTs of `simulate_mining` carry the ambient footer and a mining kind. -/
theorem simulate_mining_posts_mem (f : Footer) (d : ℚ) (tks : List Tick) :
    ∀ p ∈ posts (simulate_mining f d tks), p.1 = f ∧ miningKind p.2 = true := by
  intro p hp
  simp only [simulate_mining, posts_cons_post, posts_append, posts_nil,
    List.mem_cons, List.mem_append, List.not_mem_nil, or_false] at hp
  rcases hp with h | h | h
  · subst h; exact ⟨rfl, rfl⟩
  · exact miningLoop_posts_mem f d tks 0 0 0 p h
  · subst h; exact ⟨rfl, rfl⟩

/-- The mining trace contains no stage-boundary events. -/
theorem simulate_mining_stageEvents (f : Footer) (d : ℚ) (tks : List Tick) :
    stageEvents (simulate_mining f d tks) = [] := by
  unfold stageEvents
  rw [List.filterMap_eq_nil_iff]
  intro p hp
  obtain ⟨-, hk⟩ := simulate_mining_posts_mem f d tks p hp
  rcases p with ⟨pf, pk⟩
  cases pk <;> simp_all [miningKind]

/-- The mining trace contains no cycle-completion events. -/
theorem simulate_mining_completedUrls (f : Footer) (d : ℚ) (tks : List Tick) :
    completedUrls (simulate_mining f d tks) = [] := by
  unfold completedUrls
  rw [List.filterMap_eq_nil_iff]
  intro p hp
  obtain ⟨-, hk⟩ := simulate_mining_posts_mem f d tks p hp
  rcases p with ⟨pf, pk⟩
  cases pk <;> simp_all [miningKind]

/-- The mining trace contains no cycle-completion events (identifier view). -/
theorem simulate_mining_completedIds (f : Footer) (d : ℚ) (tks : List Tick) :
    completedIds (simulate_mining f d tks) = [] := by
  unfold completedIds
  rw [List.filterMap_eq_nil_iff]
  intro p hp
  obtain ⟨-, hk⟩ := simulate_mining_posts_mem f d tks p hp
  rcases p with ⟨pf, pk⟩
  cases pk <;> simp_all [miningKind]

/-- The mining trace contains no cycle-start events. -/
theorem simulate_mining_cycleStartCount (f : Footer) (d : ℚ) (tks : List Tick) :
    cycleStartCount (simulate_mining f d tks) = 0 := by
  unfold cycleStartCount
  rw [List.countP_eq_zero]
  intro p hp
  obtain ⟨-, hk⟩ := simulate_mining_posts_mem f d tks p hp
  rcases p with ⟨pf, pk⟩
  cases pk <;> simp_all [miningKind, cycleStartKind]

/-- The mining trace contains no error-report events. -/
theorem simulate_mining_errorPostCount (f : Footer) (d : ℚ) (tks : List Tick) :
    errorPostCount (simulate_mining f d tks) = 0 := by
  unfold errorPostCount
  rw [List.countP_eq_zero]
  intro p hp
  obtain ⟨-, hk⟩ := simulate_mining_posts_mem f d tks p hp
  rcases p with ⟨pf, pk⟩
  cases pk <;> simp_all [miningKind, errorKind]

/-- The POSTs of one stage iteration carry the ambient footer and are either
stage-boundary notifications or work-stage (mining) notifications. -/
theorem stageStep_posts_mem (f : Footer) (s : String) (dd : Nat) (tks : List Tick) :
    ∀ p ∈ posts (stageStep f s dd tks),
      p.1 = f ∧ (boundaryKind p.2 || miningKind p.2) = true := by
  intro p hp
  simp only [stageStep, posts_append, posts_cons_log, posts_cons_post, posts_nil,
    List.mem_cons, List.mem_append, List.not_mem_nil, or_false] at hp
  rcases hp with (h | h) | h
  · subst h; exact ⟨rfl, rfl⟩
  · split at h
    · obtain ⟨h1, h2⟩ := simulate_mining_posts_mem f _ tks p h
      exact ⟨h1, by simp [h2]⟩
    · simp [posts] at h
  · subst h; exact ⟨rfl, rfl⟩

/-- The stage-boundary events of one stage iteration: exactly one start and
one completion, in that order. -/
theorem stageStep_stageEvents (f : Footer) (s : String) (dd : Nat) (tks : List Tick) :
    stageEvents (stageStep f s dd tks) = [(true, s), (false, s)] := by
  unfold stageStep
  rw [stageEvents_append, stageEvents_append]
  have hmid : stageEvents
      (if s == "BUILD" then simulate_mining f ((stageDuration s dd : Nat) : ℚ) tks
       else [Ev.sleep ((stageDuration s dd : Nat) : ℚ)]) = [] := by
    split
    · exact simulate_mining_stageEvents f _ tks
    · rfl
  rw [hmid]
  rfl

/-- One stage iteration emits no cycle-completion notification. -/
theorem stageStep_completedUrls (f : Footer) (s : String) (dd : Nat) (tks : List Tick) :
    completedUrls (stageStep f s dd tks) = [] := by
  unfold completedUrls
  rw [List.filterMap_eq_nil_iff]
  intro p hp
  obtain ⟨-, hk⟩ := stageStep_posts_mem f s dd tks p hp
  rcases p with ⟨pf, pk⟩
  cases pk <;> simp_all [boundaryKind, miningKind]

/-- One stage iteration emits no cycle-completion notification (id view). -/
theorem stageStep_completedIds (f : Footer) (s : String) (dd : Nat) (tks : List Tick) :
    completedIds (stageStep f s dd tks) = [] := by
  unfold completedIds
  rw [List.filterMap_eq_nil_iff]
  intro p hp
  obtain ⟨-, hk⟩ := stageStep_posts_mem f s dd tks p hp
  rcases p with ⟨pf, pk⟩
  cases pk <;> simp_all [boundaryKind, miningKind]

/-- One stage iteration emits no cycle-start notification. -/
theorem stageStep_cycleStartCount (f : Footer) (s : String) (dd : Nat) (tks : List Tick) :
    cycleStartCount (stageStep f s dd tks) = 0 := by
  unfold cycleStartCount
  rw [List.countP_eq_zero]
  intro p hp
  obtain ⟨-, hk⟩ := stageStep_posts_mem f s dd tks p hp
  rcases p with ⟨pf, pk⟩
  cases pk <;> simp_all [boundaryKind, miningKind, cycleStartKind]

/-- One stage iteration emits no error-report notification. -/
theorem stageStep_errorPostCount (f : Footer) (s : String) (dd : Nat) (tks : List Tick) :
    errorPostCount (stageStep f s dd tks) = 0 := by
  unfold errorPostCount
  rw [List.countP_eq_zero]
  intro p hp
  obtain ⟨-, hk⟩ := stageStep_posts_mem f s dd tks p hp
  rcases p with ⟨pf, pk⟩
  cases pk <;> simp_all [boundaryKind, miningKind, errorKind]

/-- The stage loop's stage-boundary events: one start/completion pair per
listed stage, in list order. -/
theorem stagesLoop_stageEvents (f : Footer) (durDraws : Nat → Nat)
    (tks : Nat → List Tick) :
    ∀ (L : List String) (i : Nat),
      stageEvents (stagesLoop f durDraws tks i L) =
        L.flatMap fun s => [(true, s), (false, s)] := by
  intro L
  induction L with
  | nil => intro i; rfl
  | cons s rest ih =>
    intro i
    rw [stagesLoop, stageEvents_append, stageStep_stageEvents, ih]
    rfl

/-- The stage loop emits no cycle-completion notification. -/
theorem stagesLoop_completedUrls (f : Footer) (durDraws : Nat → Nat)
    (tks : Nat → List Tick) :
    ∀ (L : List String) (i : Nat),
      completedUrls (stagesLoop f durDraws tks i L) = [] := by
  intro L
  induction L with
  | nil => intro i; rfl
  | cons s rest ih =>
    intro i
    rw [stagesLoop, completedUrls_append, stageStep_completedUrls, ih]
    rfl

/-- The stage loop emits no cycle-completion notification (id view). -/
theorem stagesLoop_completedIds (f : Footer) (durDraws : Nat → Nat)
    (tks : Nat → List Tick) :
    ∀ (L : List String) (i : Nat),
      completedIds (stagesLoop f durDraws tks i L) = [] := by
  intro L
  induction L with
  | nil => intro i; rfl
  | cons s rest ih =>
    intro i
    rw [stagesLoop, completedIds_append, stageStep_completedIds, ih]
    rfl

/-- The stage loop emits no cycle-start notification. -/
theorem stagesLoop_cycleStartCount (f : Footer) (durDraws : Nat → Nat)
    (tks : Nat → List Tick) :
    ∀ (L : List String) (i : Nat),
      cycleStartCount (stagesLoop f durDraws tks i L) = 0 := by
  intro L
  induction L with
  | nil => intro i; rfl
  | cons s rest ih =>
    intro i
    rw [stagesLoop, cycleStartCount_append, stageStep_cycleStartCount, ih]

/-- The stage loop emits no error-report notification. -/
theorem stagesLoop_errorPostCount (f : Footer) (durDraws : Nat → Nat)
    (tks : Nat → List Tick) :
    ∀ (L : List String) (i : Nat),
      errorPostCount (stagesLoop f durDraws tks i L) = 0 := by
  intro L
  induction L with
  | nil => intro i; rfl
  | cons s rest ih =>
    intro i
    rw [stagesLoop, errorPostCount_append, stageStep_errorPostCount, ih]

/-- All POSTs of the stage loop carry the ambient footer and are
stage-boundary or work-stage notifications. -/
theorem stagesLoop_posts_mem (f : Footer) (durDraws : Nat → Nat)
    (tks : Nat → List Tick) :
    ∀ (L : List String) (i : Nat),
      ∀ p ∈ posts (stagesLoop f durDraws tks i L),
        p.1 = f ∧ (boundaryKind p.2 || miningKind p.2) = true := by
  intro L
  induction L with
  | nil => intro i p hp; simp [stagesLoop] at hp
  | cons s rest ih =>
    intro i p hp
    rw [stagesLoop, posts_append] at hp
    rcases List.mem_append.mp hp with h | h
    · exact stageStep_posts_mem f s (durDraws i) (tks i) p h
    · exact ih (i + 1) p h

/-- The "Build URL" values of one run of `simulate_build_process`: exactly one
cycle-completion notification, whose URL is built from the domain argument. -/
theorem build_completedUrls (f : Footer) (domain : String) (stages : List String)
    (durDraws : Nat → Nat) (tks : Nat → List Tick) :
    completedUrls (simulate_build_process f domain stages durDraws tks) =
      ["https://" ++ domain] := by
  unfold simulate_build_process
  rw [completedUrls_append, completedUrls_append, stagesLoop_completedUrls]
  rfl

/-- The completed build identifiers of one run of `simulate_build_process`. -/
theorem build_completedIds (f : Footer) (domain : String) (stages : List String)
    (durDraws : Nat → Nat) (tks : Nat → List Tick) :
    completedIds (simulate_build_process f domain stages durDraws tks) =
      [f.buildId] := by
  unfold simulate_build_process
  rw [completedIds_append, completedIds_append, stagesLoop_completedIds]
  rfl

/-- One run of `simulate_build_process` emits exactly one cycle-start
notification. -/
theorem build_cycleStartCount (f : Footer) (domain : String) (stages : List String)
    (durDraws : Nat → Nat) (tks : Nat → List Tick) :
    cycleStartCount (simulate_build_process f domain stages durDraws tks) = 1 := by
  unfold simulate_build_process
  rw [cycleStartCount_append, cycleStartCount_append, stagesLoop_cycleStartCount]
  rfl

/-- One run of `simulate_build_process` emits no error-report notification. -/
theorem build_errorPostCount (f : Footer) (domain : String) (stages : List String)
    (durDraws : Nat → Nat) (tks : Nat → List Tick) :
    errorPostCount (simulate_build_process f domain stages durDraws tks) = 0 := by
  unfold simulate_build_process
  rw [errorPostCount_append, errorPostCount_append, stagesLoop_errorPostCount]
  rfl

/-- All POSTs of one run of `simulate_build_process` carry its footer. -/
theorem build_posts_footer (f : Footer) (domain : String) (stages : List String)
    (durDraws : Nat → Nat) (tks : Nat → List Tick) :
    ∀ p ∈ posts (simulate_build_process f domain stages durDraws tks),
      p.1 = f := by
  intro p hp
  simp only [simulate_build_process, posts_append, posts_cons_post, posts_nil,
    List.mem_cons, List.mem_append, List.not_mem_nil, or_false,
    List.cons_append, List.nil_append] at hp
  rcases hp with h | h | h
  · subst h; rfl
  · exact (stagesLoop_posts_mem f durDraws tks stages 0 p h).1
  · subst h; rfl

/-- Truncating a trace cannot increase its error-report count. -/
theorem errorPostCount_take_le (l : List Ev) (n : Nat) :
    errorPostCount (l.take n) ≤ errorPostCount l :=
  List.Sublist.countP_le _
    (List.Sublist.filterMap _ (List.take_sublist n l))

/-- Truncating a trace cannot increase its cycle-start count. -/
theorem cycleStartCount_take_le (l : List Ev) (n : Nat) :
    cycleStartCount (l.take n) ≤ cycleStartCount l :=
  List.Sublist.countP_le _
    (List.Sublist.filterMap _ (List.take_sublist n l))

/-- Cycle `i` reports exactly one "Build URL", built from `AMPLIFY_DOMAIN`,
which was fixed at module load from the first build identifier. -/
theorem cycleEvs_completedUrls (env : AmpEnv) (i : Nat) :
    completedUrls (cycleEvs env i) = ["https://" ++ ampDomain env] := by
  unfold cycleEvs
  rw [completedUrls_append, completedUrls_append, build_completedUrls]
  have h1 : completedUrls
      (if i = 0 then ([] : List Ev) else
        [Ev.log ("Waiting for " ++ toString (randint 1800 3600 (env.waitDraws i)) ++
           " seconds before next build..."),
         Ev.sleep ((randint 1800 3600 (env.waitDraws i) : Nat) : ℚ),
         Ev.log ("Starting new build: " ++ (footerAt env i).buildId)]) = [] := by
    split <;> rfl
  rw [h1]
  rfl

/-- Cycle `i`'s completion notification carries cycle `i`'s build identifier. -/
theorem cycleEvs_completedIds (env : AmpEnv) (i : Nat) :
    completedIds (cycleEvs env i) = [(footerAt env i).buildId] := by
  unfold cycleEvs
  rw [completedIds_append, completedIds_append, build_completedIds]
  have h1 : completedIds
      (if i = 0 then ([] : List Ev) else
        [Ev.log ("Waiting for " ++ toString (randint 1800 3600 (env.waitDraws i)) ++
           " seconds before next build..."),
         Ev.sleep ((randint 1800 3600 (env.waitDraws i) : Nat) : ℚ),
         Ev.log ("Starting new build: " ++ (footerAt env i).buildId)]) = [] := by
    split <;> rfl
  rw [h1]
  rfl

/-- Cycle `i` emits exactly one cycle-start notification. -/
theorem cycleEvs_cycleStartCount (env : AmpEnv) (i : Nat) :
    cycleStartCount (cycleEvs env i) = 1 := by
  unfold cycleEvs
  rw [cycleStartCount_append, cycleStartCount_append, build_cycleStartCount]
  have h1 : cycleStartCount
      (if i = 0 then ([] : List Ev) else
        [Ev.log ("Waiting for " ++ toString (randint 1800 3600 (env.waitDraws i)) ++
           " seconds before next build..."),
         Ev.sleep ((randint 1800 3600 (env.waitDraws i) : Nat) : ℚ),
         Ev.log ("Starting new build: " ++ (footerAt env i).buildId)]) = 0 := by
    split <;> rfl
  rw [h1]
  rfl

/-- Cycle `i` emits no error-report notification. -/
theorem cycleEvs_errorPostCount (env : AmpEnv) (i : Nat) :
    errorPostCount (cycleEvs env i) = 0 := by
  unfold cycleEvs
  rw [errorPostCount_append, errorPostCount_append, build_errorPostCount]
  have h1 : errorPostCount
      (if i = 0 then ([] : List Ev) else
        [Ev.log ("Waiting for " ++ toString (randint 1800 3600 (env.waitDraws i)) ++
           " seconds before next build..."),
         Ev.sleep ((randint 1800 3600 (env.waitDraws i) : Nat) : ℚ),
         Ev.log ("Starting new build: " ++ (footerAt env i).buildId)]) = 0 := by
    split <;> rfl
  rw [h1]
  rfl

/-- All POSTs of cycle `i` carry cycle `i`'s footer: the module-load `APP_ID`
and `INSTANCE_ID` together with cycle `i`'s `BUILD_ID`. -/
theorem cycleEvs_posts_footer (env : AmpEnv) (i : Nat) :
    ∀ p ∈ posts (cycleEvs env i), p.1 = footerAt env i := by
  intro p hp
  unfold cycleEvs at hp
  rw [posts_append, posts_append] at hp
  rcases List.mem_append.mp hp with h | h
  · rcases List.mem_append.mp h with h' | h'
    · split at h' <;> simp [posts] at h'
    · exact build_posts_footer _ _ _ _ _ p h'
  · simp [posts] at h
    rw [h]

/-- When every cycle outcome is normal, `fuel` unfolded cycles produce exactly
one completion URL per cycle — always the module-load URL — while the reported
build identifiers are the per-cycle ones, and every POST carries the
module-load `APP_ID` and `INSTANCE_ID`. -/
theorem runCycles_ok (env : AmpEnv) (hok : ∀ i, env.outcome i = CycleOutcome.ok) :
    ∀ (fuel i : Nat),
      completedUrls (runCycles env i fuel).1 =
          List.replicate fuel ("https://" ++ ampDomain env) ∧
      completedIds (runCycles env i fuel).1 =
          (List.range' i fuel).map (fun j => (footerAt env j).buildId) ∧
      ∀ p ∈ posts (runCycles env i fuel).1,
        p.1.appId = env.appId ∧ p.1.instanceId = env.instanceId := by
  intro fuel
  induction fuel with
  | zero =>
    intro i
    refine ⟨rfl, rfl, ?_⟩
    intro p hp
    simp [runCycles, posts] at hp
  | succ fuel ih =>
    intro i
    rw [runCycles, hok i]
    obtain ⟨ih1, ih2, ih3⟩ := ih (i + 1)
    refine ⟨?_, ?_, ?_⟩
    · rw [completedUrls_append, cycleEvs_completedUrls, ih1, List.replicate_succ]
      rfl
    · rw [completedIds_append, cycleEvs_completedIds, ih2, List.range'_succ]
      rfl
    · intro p hp
      rw [posts_append] at hp
      rcases List.mem_append.mp hp with h | h
      · rw [cycleEvs_posts_footer env i p h]
        exact ⟨rfl, rfl⟩
      · exact ih3 p h

/-- When cycles `i ≤ j < n` complete normally and cycle `n` raises an
unexpected exception, the unfolded loop starting at cycle `i`: returns (the
process exits), reports the error exactly once, ends with that error report,
and starts at most `n - i + 1` cycles (the failed cycle is not retried). -/
theorem runCycles_exc (env : AmpEnv) (n : Nat) (e : String)
    (hok : ∀ j, j < n → env.outcome j = CycleOutcome.ok)
    (hexc : env.outcome n = CycleOutcome.exc e) :
    ∀ (fuel i : Nat), i ≤ n → n < i + fuel →
      (runCycles env i fuel).2 = AmpTerm.returned ∧
      errorPostCount (runCycles env i fuel).1 = 1 ∧
      (runCycles env i fuel).1.getLast? =
        some (Ev.post (footerAt env n) (Kind.simulationError e)) ∧
      cycleStartCount (runCycles env i fuel).1 ≤ (n - i) + 1 := by
  intro fuel
  induction fuel with
  | zero => intro i h1 h2; omega
  | succ fuel ih =>
    intro i h1 h2
    by_cases hi : i = n
    · subst hi
      rw [runCycles, hexc]
      dsimp only
      refine ⟨rfl, ?_, ?_, ?_⟩
      · rw [errorPostCount_append]
        have hz : errorPostCount ((cycleEvs env i).take (env.exnCut i)) = 0 :=
          Nat.le_zero.mp (cycleEvs_errorPostCount env i ▸ errorPostCount_take_le _ _)
        rw [hz]
        rfl
      · rw [show [Ev.log ("Error in simulation: " ++ e),
            Ev.post (footerAt env i) (Kind.simulationError e)] =
            [Ev.log ("Error in simulation: " ++ e)] ++
            [Ev.post (footerAt env i) (Kind.simulationError e)] from rfl,
          ← List.append_assoc]
        exact List.getLast?_concat _
      · rw [cycleStartCount_append]
        have hle : cycleStartCount ((cycleEvs env i).take (env.exnCut i)) ≤ 1 :=
          cycleEvs_cycleStartCount env i ▸ cycleStartCount_take_le _ _
        have hz : cycleStartCount
            [Ev.log ("Error in simulation: " ++ e),
             Ev.post (footerAt env i) (Kind.simulationError e)] = 0 := rfl
        omega
    · have hlt : i < n := Nat.lt_of_le_of_ne h1 hi
      rw [runCycles, hok i hlt]
      dsimp only
      obtain ⟨ihA, ihB, ihC, ihD⟩ := ih (i + 1) hlt (by omega)
      refine ⟨ihA, ?_, ?_, ?_⟩
      · rw [errorPostCount_append, cycleEvs_errorPostCount, ihB]
      · have hne : (runCycles env (i + 1) fuel).1 ≠ [] := by
          intro hnil
          rw [hnil] at ihC
          simp at ihC
        rw [List.getLast?_append_of_ne_nil _ hne]
        exact ihC
      · rw [cycleStartCount_append, cycleEvs_cycleStartCount]
        omega

/-- One mining iteration's counters: both counters increment exactly when the
share draw lands below the 0.3 threshold. -/
theorem miningStep_counters (f : Footer) (tk : Tick) (sf sa : Nat) :
    (miningStep f tk sf sa).2.1 = (if tk.shareDraw < 3/10 then sf + 1 else sf) ∧
    (miningStep f tk sf sa).2.2 = (if tk.shareDraw < 3/10 then sa + 1 else sa) :=
  ⟨rfl, rfl⟩

/-- One mining iteration's POSTs: one status notification exactly when the
status draw lands below the 0.2 threshold, carrying the updated counters. -/
theorem miningStep_posts (f : Footer) (tk : Tick) (sf sa : Nat) :
    posts (miningStep f tk sf sa).1 =
      if tk.notifyDraw < 2/10 then
        [(f, Kind.miningStatus (miningStep f tk sf sa).2.2 (miningStep f tk sf sa).2.1)]
      else [] := by
  by_cases h1 : tk.shareDraw < 3/10 <;> by_cases h2 : tk.notifyDraw < 2/10 <;>
    simp [miningStep, posts, h1, h2]

/-- `_found_share` preserves the share-counter identity. -/
theorem found_share_inv (r : ℚ) (s : MinerShares) (h : sharesInv s) :
    sharesInv (found_share r s) := by
  unfold sharesInv at h ⊢
  unfold found_share
  split <;> simp <;> omega

/-- Any sequence of `_found_share` calls starting from a state satisfying the
share-counter identity ends in a state satisfying it. -/
theorem found_share_foldl_inv (rs : List ℚ) :
    ∀ s : MinerShares, sharesInv s →
      sharesInv (rs.foldl (fun s r => found_share r s) s) := by
  induction rs with
  | nil => intro s h; exact h
  | cons r rest ih =>
    intro s h
    exact ih (found_share r s) (found_share_inv r s h)

/-- In `simulate_mining`'s loop, `shares_accepted = shares_found` is
maintained through every iteration, both in the final counters and in the
counters carried by every interim status POST. -/
theorem miningLoop_counters_eq (f : Footer) (d : ℚ) :
    ∀ (tks : List Tick) (t : ℚ) (sf sa : Nat), sa = sf →
      (miningLoop f d t sf sa tks).2.2 = (miningLoop f d t sf sa tks).2.1 ∧
      ∀ p ∈ posts (miningLoop f d t sf sa tks).1,
        ∀ sa' sf', p.2 = Kind.miningStatus sa' sf' → sa' = sf' := by
  intro tks
  induction tks with
  | nil =>
    intro t sf sa h
    exact ⟨h, by intro p hp; simp [miningLoop, posts] at hp⟩
  | cons tk rest ih =>
    intro t sf sa h
    simp only [miningLoop]
    split
    · have hstep : (miningStep f tk sf sa).2.2 = (miningStep f tk sf sa).2.1 := by
        obtain ⟨hc1, hc2⟩ := miningStep_counters f tk sf sa
        rw [hc1, hc2, h]
      obtain ⟨ihA, ihB⟩ := ih (t + tk.sleepDraw)
        (miningStep f tk sf sa).2.1 (miningStep f tk sf sa).2.2 hstep
      refine ⟨ihA, ?_⟩
      intro p hp sa' sf' hkind
      rw [posts_append] at hp
      rcases List.mem_append.mp hp with hmem | hmem
      · rw [miningStep_posts] at hmem
        split at hmem
        · simp at hmem
          rw [hmem] at hkind
          simp at hkind
          rw [← hkind.1, ← hkind.2]
          exact hstep
        · simp at hmem
      · exact ihB p hmem sa' sf' hkind
    · exact ⟨h, by intro p hp; simp [posts] at hp⟩

/-- A delivery failure makes `send_webhook` return `False` (the code checks
`response.status_code == 200`, so in particular every non-2xx outcome and
every transport exception takes the failure branch). -/
theorem send_webhook_result_of_isFailure (r : TransportResult)
    (h : r.isFailure) : send_webhook_result r = false := by
  rcases r with ⟨code, text⟩ | msg
  · have hne : code ≠ 200 := by
      unfold TransportResult.isFailure at h
      rcases h with h | h <;> omega
    simpa [send_webhook_result] using hne
  · rfl

/-- A delivery failure makes `_send_slack_report` take its error-logging
branch (`response.status_code != 200`). -/
theorem send_slack_report_ok_of_isFailure (r : TransportResult)
    (h : r.isFailure) : send_slack_report_ok r = false := by
  rcases r with ⟨code, text⟩ | msg
  · have hne : code ≠ 200 := by
      unfold TransportResult.isFailure at h
      rcases h with h | h <;> omega
    simpa [send_slack_report_ok] using hne
  · rfl

@[simp] theorem failLogCount_cons_log (m : String) (l : List Ev) :
    failLogCount (Ev.log m :: l) = failLogCount l := by
  simp [failLogCount, List.countP_cons, isFailLog]

@[simp] theorem failLogCount_cons_sleep (d : ℚ) (l : List Ev) :
    failLogCount (Ev.sleep d :: l) = failLogCount l := by
  simp [failLogCount, List.countP_cons, isFailLog]

@[simp] theorem failLogCount_cons_post (f : Footer) (k : Kind) (l : List Ev) :
    failLogCount (Ev.post f k :: l) = failLogCount l := by
  simp [failLogCount, List.countP_cons, isFailLog]

@[simp] theorem failLogCount_cons_sendlog (r : TransportResult) (l : List Ev) :
    failLogCount (Ev.sendlog r :: l) =
      failLogCount l + (if send_webhook_result r then 0 else 1) := by
  simp only [failLogCount, List.countP_cons, isFailLog, Bool.not_eq_true']
  rcases Bool.eq_false_or_eq_true (send_webhook_result r) with hr | hr <;>
    simp [hr]

/-- `applyNet` only inserts delivery log lines: the attempted POSTs are
unchanged. -/
theorem applyNet_posts (net : Nat → TransportResult) :
    ∀ (l : List Ev) (n : Nat), posts (applyNet net n l) = posts l := by
  intro l
  induction l with
  | nil => intro n; rfl
  | cons e rest ih =>
    intro n
    cases e with
    | log m => rw [applyNet, posts_cons_log, posts_cons_log, ih]
    | sleep d => rw [applyNet, posts_cons_sleep, posts_cons_sleep, ih]
    | post f k =>
      rw [applyNet, posts_cons_post, posts_cons_sendlog, posts_cons_post, ih]
    | sendlog r => rw [applyNet, posts_cons_sendlog, posts_cons_sendlog, ih]

/-- When the delivery oracle fails on every attempt, `applyNet` inserts
exactly one failure log line per attempted POST (on top of whatever delivery
logs the input trace already contained). -/
theorem applyNet_failLogCount (net : Nat → TransportResult)
    (hfail : ∀ m, (net m).isFailure) :
    ∀ (l : List Ev) (n : Nat),
      failLogCount (applyNet net n l) = (posts l).length + failLogCount l := by
  intro l
  induction l with
  | nil => intro n; rfl
  | cons e rest ih =>
    intro n
    cases e with
    | log m => rw [applyNet, failLogCount_cons_log, ih, posts_cons_log]; rfl
    | sleep d => rw [applyNet, failLogCount_cons_sleep, ih, posts_cons_sleep]; rfl
    | post f k =>
      rw [applyNet, failLogCount_cons_post, failLogCount_cons_sendlog,
        send_webhook_result_of_isFailure (net n) (hfail n), ih, posts_cons_post]
      simp [List.length_cons]
      omega
    | sendlog r =>
      rw [applyNet, failLogCount_cons_sendlog, failLogCount_cons_sendlog, ih,
        posts_cons_sendlog]
      omega

/-- One mining iteration emits no delivery-outcome log line (its events are
at most a "Found share" log, a status POST, and a sleep). -/
theorem miningStep_failLogCount (f : Footer) (tk : Tick) (sf sa : Nat) :
    failLogCount (miningStep f tk sf sa).1 = 0 := by
  by_cases h1 : tk.shareDraw < 3/10 <;> by_cases h2 : tk.notifyDraw < 2/10 <;>
    simp [miningStep, h1, h2, failLogCount, isFailLog]

/-- The mining loop emits no delivery-outcome log line. -/
theorem miningLoop_failLogCount (f : Footer) (d : ℚ) :
    ∀ (tks : List Tick) (t : ℚ) (sf sa : Nat),
      failLogCount (miningLoop f d t sf sa tks).1 = 0 := by
  intro tks
  induction tks with
  | nil => intro t sf sa; rfl
  | cons tk rest ih =>
    intro t sf sa
    simp only [miningLoop]
    split
    · rw [failLogCount_append, miningStep_failLogCount, ih]
    · rfl

/-- `simulate_mining` emits no delivery-outcome log line. -/
theorem simulate_mining_failLogCount (f : Footer) (d : ℚ) (tks : List Tick) :
    failLogCount (simulate_mining f d tks) = 0 := by
  unfold simulate_mining
  rw [failLogCount_cons_post, failLogCount_append, miningLoop_failLogCount]
  rfl

/-- One stage iteration emits no delivery-outcome log line. -/
theorem stageStep_failLogCount (f : Footer) (s : String) (dd : Nat)
    (tks : List Tick) :
    failLogCount (stageStep f s dd tks) = 0 := by
  unfold stageStep
  rw [failLogCount_append, failLogCount_append]
  have hmid : failLogCount
      (if s == "BUILD" then simulate_mining f ((stageDuration s dd : Nat) : ℚ) tks
       else [Ev.sleep ((stageDuration s dd : Nat) : ℚ)]) = 0 := by
    split
    · exact simulate_mining_failLogCount f _ tks
    · rfl
  rw [hmid]
  rfl

/-- The stage loop emits no delivery-outcome log line. -/
theorem stagesLoop_failLogCount (f : Footer) (durDraws : Nat → Nat)
    (tks : Nat → List Tick) :
    ∀ (L : List String) (i : Nat),
      failLogCount (stagesLoop f durDraws tks i L) = 0 := by
  intro L
  induction L with
  | nil => intro i; rfl
  | cons s rest ih =>
    intro i
    rw [stagesLoop, failLogCount_append, stageStep_failLogCount, ih]

/-- `simulate_build_process` emits no delivery-outcome log line of its own
(delivery outcomes are attached by `applyNet`). -/
theorem build_failLogCount (f : Footer) (domain : String) (stages : List String)
    (durDraws : Nat → Nat) (tks : Nat → List Tick) :
    failLogCount (simulate_build_process f domain stages durDraws tks) = 0 := by
  unfold simulate_build_process
  rw [failLogCount_append, failLogCount_append, stagesLoop_failLogCount]
  rfl

/-- The POSTs of one stage iteration, exactly: a stage-start notification, the
work-stage notifications when this is the `"BUILD"` stage, and a
stage-completion notification. -/
theorem stageStep_posts (f : Footer) (s : String) (dd : Nat) (tks : List Tick) :
    posts (stageStep f s dd tks) =
      (f, Kind.stageStarted s) ::
        ((if s == "BUILD" then
            posts (simulate_mining f ((stageDuration s dd : Nat) : ℚ) tks)
          else []) ++ [(f, Kind.stageCompleted s)]) := by
  unfold stageStep
  rw [posts_append, posts_append]
  have hmid : posts
      (if s == "BUILD" then simulate_mining f ((stageDuration s dd : Nat) : ℚ) tks
       else [Ev.sleep ((stageDuration s dd : Nat) : ℚ)]) =
      (if s == "BUILD" then
        posts (simulate_mining f ((stageDuration s dd : Nat) : ℚ) tks)
       else []) := by
    split <;> rfl
  rw [hmid]
  rfl

/-- The by-chance credential-leak step emits no error-report notification. -/
theorem credEvs_errorPostCount (env : AmpEnv) :
    errorPostCount (credEvs env) = 0 := by
  unfold credEvs
  split <;> rfl

/-- The by-chance credential-leak step emits no cycle-start notification. -/
theorem credEvs_cycleStartCount (env : AmpEnv) :
    cycleStartCount (credEvs env) = 0 := by
  unfold credEvs
  split <;> rfl

/-- The by-chance credential-leak step emits no cycle-completion
notification. -/
theorem credEvs_completedUrls (env : AmpEnv) :
    completedUrls (credEvs env) = [] := by
  unfold credEvs
  split <;> rfl

/-- The by-chance credential-leak step emits no cycle-completion
notification (identifier view). -/
theorem credEvs_completedIds (env : AmpEnv) :
    completedIds (credEvs env) = [] := by
  unfold credEvs
  split <;> rfl

/-- Any POST of the credential-leak step carries the startup footer. -/
theorem credEvs_posts_footer (env : AmpEnv) :
    ∀ p ∈ posts (credEvs env), p.1 = footerAt env 0 := by
  intro p hp
  unfold credEvs at hp
  split at hp
  · simp [posts] at hp
    rw [hp]
  · simp [posts] at hp

/-- The stage-boundary events of one full run of `simulate_build_process`
over `AMPLIFY_STAGES`: one started/completed pair per stage, in order. -/
theorem build_stageEvents (f : Footer) (domain : String)
    (durDraws : Nat → Nat) (tks : Nat → List Tick) :
    stageEvents (simulate_build_process f domain AMPLIFY_STAGES durDraws tks) =
      [(true, "PROVISIONING"), (false, "PROVISIONING"),
       (true, "DOWNLOAD_SOURCE"), (false, "DOWNLOAD_SOURCE"),
       (true, "BUILD"), (false, "BUILD"),
       (true, "DEPLOY"), (false, "DEPLOY"),
       (true, "VERIFY"), (false, "VERIFY")] := by
  unfold simulate_build_process
  rw [stageEvents_append, stageEvents_append, stagesLoop_stageEvents]
  rfl

/- ------------------------------------------------------------------------
Claims
------------------------------------------------------------------------ -/

/-- C1: share-counter identity.  In `fake_cryptominer`, every `_found_share`
call increments `shares_found` and exactly one of `shares_accepted` or
`shares_rejected`, so `shares_accepted + shares_rejected = shares_found` is
preserved by each update and holds after any sequence of updates from the
initial state.  In `amplify-sim`'s `simulate_mining`, the local counters
satisfy the same identity after every tick — there is no rejection there, so
`shares_accepted = shares_found` throughout, in the final counters and in the
counters carried by every interim status report. -/
theorem claim1_share_counter_invariant :
    (∀ (r : ℚ) (s : MinerShares), sharesInv s → sharesInv (found_share r s)) ∧
    (∀ rs : List ℚ,
      sharesInv (rs.foldl (fun s r => found_share r s) initShares)) ∧
    (∀ (f : Footer) (d t : ℚ) (sf sa : Nat) (tks : List Tick), sa = sf →
      (miningLoop f d t sf sa tks).2.2 = (miningLoop f d t sf sa tks).2.1 ∧
      ∀ p ∈ posts (miningLoop f d t sf sa tks).1,
        ∀ sa' sf', p.2 = Kind.miningStatus sa' sf' → sa' = sf') :=
  ⟨found_share_inv,
   fun rs => found_share_foldl_inv rs initShares rfl,
   fun f d t sf sa tks h => miningLoop_counters_eq f d tks t sf sa h⟩

/-- C1 witness: the invariant evaluated at concrete inputs. -/
theorem claim1_share_counter_invariant_witness :
    sharesInv (found_share (97/100) ⟨3, 2, 1⟩) ∧
    sharesInv ([1/2, 99/100, 1/4].foldl (fun s r => found_share r s) initShares) ∧
    ((miningLoop ⟨"a", "b", "i"⟩ 20 0 0 0 [⟨1/10, 1/10, 5⟩]).2.2 =
      (miningLoop ⟨"a", "b", "i"⟩ 20 0 0 0 [⟨1/10, 1/10, 5⟩]).2.1 ∧
     ∀ p ∈ posts (miningLoop ⟨"a", "b", "i"⟩ 20 0 0 0 [⟨1/10, 1/10, 5⟩]).1,
        ∀ sa' sf', p.2 = Kind.miningStatus sa' sf' → sa' = sf') :=
  ⟨claim1_share_counter_invariant.1 (97/100) ⟨3, 2, 1⟩ (by unfold sharesInv; decide),
   claim1_share_counter_invariant.2.1 [1/2, 99/100, 1/4],
   claim1_share_counter_invariant.2.2 ⟨"a", "b", "i"⟩ 20 0 0 0
     [⟨1/10, 1/10, 5⟩] rfl⟩

/-- C2: one run of `simulate_build_process` over `AMPLIFY_STAGES` emits the
stage-boundary notifications PROVISIONING, DOWNLOAD_SOURCE, BUILD, DEPLOY,
VERIFY in exactly that order, each as one "Stage started" followed by one
"Stage completed", with nothing skipped, repeated, or reordered, and the
function's trace ends with (so the function returns only after) the final
report that follows the last stage's completion. -/
theorem claim2_stage_sequence (f : Footer) (domain : String)
    (durDraws : Nat → Nat) (tks : Nat → List Tick) :
    stageEvents (simulate_build_process f domain AMPLIFY_STAGES durDraws tks) =
      [(true, "PROVISIONING"), (false, "PROVISIONING"),
       (true, "DOWNLOAD_SOURCE"), (false, "DOWNLOAD_SOURCE"),
       (true, "BUILD"), (false, "BUILD"),
       (true, "DEPLOY"), (false, "DEPLOY"),
       (true, "VERIFY"), (false, "VERIFY")] ∧
    (simulate_build_process f domain AMPLIFY_STAGES durDraws tks).getLast? =
      some (Ev.post f (Kind.buildCompleted f.buildId ("https://" ++ domain))) := by
  constructor
  · exact build_stageEvents f domain durDraws tks
  · unfold simulate_build_process
    exact List.getLast?_concat _

/-- C5: per-tick Bernoulli trials.  In `simulate_mining`'s loop a share is
found on a tick exactly when that tick's share draw is below the fixed 0.3
threshold (and a found share increments the accepted counter in lockstep with
the found counter); an interim status notification is emitted exactly when the
independent status draw is below the fixed 0.2 threshold; neither decision
depends on the other draw.  In `_found_share`, a found share is accepted
exactly when the acceptance draw is below the fixed 0.95 threshold, and
otherwise rejected. -/
theorem claim5_bernoulli_trials :
    (∀ (f : Footer) (tk : Tick) (sf sa : Nat),
      ((miningStep f tk sf sa).2.1 = sf + 1 ↔ tk.shareDraw < 3/10) ∧
      ((miningStep f tk sf sa).2.1 = sf ↔ 3/10 ≤ tk.shareDraw) ∧
      (miningStep f tk sf sa).2.2 + sf = (miningStep f tk sf sa).2.1 + sa ∧
      ((posts (miningStep f tk sf sa).1).length = 1 ↔ tk.notifyDraw < 2/10) ∧
      ((posts (miningStep f tk sf sa).1).length = 0 ↔ 2/10 ≤ tk.notifyDraw) ∧
      (∀ q : ℚ, (miningStep f ⟨tk.shareDraw, q, tk.sleepDraw⟩ sf sa).2 =
        (miningStep f tk sf sa).2) ∧
      (∀ p : ℚ,
        (posts (miningStep f ⟨p, tk.notifyDraw, tk.sleepDraw⟩ sf sa).1).length =
          (posts (miningStep f tk sf sa).1).length)) ∧
    (∀ (r : ℚ) (s : MinerShares),
      (found_share r s).shares_found = s.shares_found + 1 ∧
      ((found_share r s).shares_accepted = s.shares_accepted + 1 ↔ r < 95/100) ∧
      ((found_share r s).shares_rejected = s.shares_rejected + 1 ↔ 95/100 ≤ r) ∧
      ((found_share r s).shares_accepted = s.shares_accepted ↔ 95/100 ≤ r) ∧
      ((found_share r s).shares_rejected = s.shares_rejected ↔ r < 95/100)) := by
  constructor
  · intro f tk sf sa
    obtain ⟨hc1, hc2⟩ := miningStep_counters f tk sf sa
    have hp := miningStep_posts f tk sf sa
    refine ⟨?_, ?_, ?_, ?_, ?_, fun q => rfl, ?_⟩
    · rw [hc1]
      by_cases h1 : tk.shareDraw < 3/10
      · rw [if_pos h1]; simp [h1]
      · rw [if_neg h1]; simp [h1]
    · rw [hc1]
      by_cases h1 : tk.shareDraw < 3/10
      · rw [if_pos h1]; simp [not_le.mpr h1]
      · rw [if_neg h1]; simp [le_of_not_lt h1]
    · rw [hc1, hc2]
      by_cases h1 : tk.shareDraw < 3/10
      · rw [if_pos h1, if_pos h1]; omega
      · rw [if_neg h1, if_neg h1]; omega
    · rw [hp]
      by_cases h2 : tk.notifyDraw < 2/10
      · rw [if_pos h2]; simp [h2]
      · rw [if_neg h2]; simp [h2]
    · rw [hp]
      by_cases h2 : tk.notifyDraw < 2/10
      · rw [if_pos h2]; simp [not_le.mpr h2]
      · rw [if_neg h2]; simp [le_of_not_lt h2]
    · intro p
      rw [miningStep_posts, miningStep_posts]
      by_cases h2 : tk.notifyDraw < 2/10
      · rw [if_pos h2, if_pos h2]; rfl
      · rw [if_neg h2, if_neg h2]
  · intro r s
    by_cases hr : r < 95/100
    · simp [found_share, hr, not_le.mpr hr]
    · simp [found_share, hr, le_of_not_lt hr]

/-- C6: for every raw draw, the drawn duration of the BUILD (work) stage lies
in [30, 90] and the drawn duration of every other stage lies in [10, 30]
(`random.randint` is inclusive on both ends), and the work stage's configured
range is strictly wider than the range of the other stages. -/
theorem claim6_stage_duration_bounds (stage : String) (r : Nat)
    (h : stage ≠ "BUILD") :
    (30 ≤ stageDuration "BUILD" r ∧ stageDuration "BUILD" r ≤ 90) ∧
    (10 ≤ stageDuration stage r ∧ stageDuration stage r ≤ 30) ∧
    stageHi "BUILD" - stageLo "BUILD" > stageHi stage - stageLo stage := by
  have hb : stageDuration "BUILD" r = 30 + r % 61 := rfl
  have hbne : ¬((stage == "BUILD") = true) := by simpa using h
  have hs : stageDuration stage r = 10 + r % 21 := by
    unfold stageDuration
    rw [if_neg hbne]
    rfl
  have h61 : r % 61 < 61 := Nat.mod_lt r (by omega)
  have h21 : r % 21 < 21 := Nat.mod_lt r (by omega)
  have hhi : stageHi stage = 30 := by unfold stageHi; rw [if_neg hbne]
  have hlo : stageLo stage = 10 := by unfold stageLo; rw [if_neg hbne]
  rw [hb, hs, hhi, hlo]
  exact ⟨⟨by omega, by omega⟩, ⟨by omega, by omega⟩, by decide⟩

/-- C6 witness: the bounds evaluated at the DEPLOY stage and a concrete
draw. -/
theorem claim6_stage_duration_bounds_witness :
    (30 ≤ stageDuration "BUILD" 137 ∧ stageDuration "BUILD" 137 ≤ 90) ∧
    (10 ≤ stageDuration "DEPLOY" 137 ∧ stageDuration "DEPLOY" 137 ≤ 30) ∧
    stageHi "BUILD" - stageLo "BUILD" > stageHi "DEPLOY" - stageLo "DEPLOY" :=
  claim6_stage_duration_bounds "DEPLOY" 137 (by decide)

/-- C3: delivery failures are swallowed.  `send_webhook` returns `False` (and
`_send_slack_report` takes its logging branch) on every non-2xx response or
transport exception, instead of raising; since no caller consumes these
results, a cycle whose every delivery attempt fails still emits the complete
stage sequence, with exactly one failure log line per attempted send. -/
theorem claim3_delivery_failures_swallowed :
    (∀ r : TransportResult, r.isFailure → send_webhook_result r = false) ∧
    (∀ r : TransportResult, r.isFailure → send_slack_report_ok r = false) ∧
    (∀ (net : Nat → TransportResult) (f : Footer) (domain : String)
       (durDraws : Nat → Nat) (tks : Nat → List Tick),
      (∀ m, (net m).isFailure) →
      stageEvents (applyNet net 0
          (simulate_build_process f domain AMPLIFY_STAGES durDraws tks)) =
        [(true, "PROVISIONING"), (false, "PROVISIONING"),
         (true, "DOWNLOAD_SOURCE"), (false, "DOWNLOAD_SOURCE"),
         (true, "BUILD"), (false, "BUILD"),
         (true, "DEPLOY"), (false, "DEPLOY"),
         (true, "VERIFY"), (false, "VERIFY")] ∧
      failLogCount (applyNet net 0
          (simulate_build_process f domain AMPLIFY_STAGES durDraws tks)) =
        (posts (simulate_build_process f domain AMPLIFY_STAGES durDraws tks)).length) := by
  refine ⟨send_webhook_result_of_isFailure, send_slack_report_ok_of_isFailure, ?_⟩
  intro net f domain durDraws tks hfail
  constructor
  · have hposts := applyNet_posts net
      (simulate_build_process f domain AMPLIFY_STAGES durDraws tks) 0
    unfold stageEvents
    rw [hposts]
    exact build_stageEvents f domain durDraws tks
  · rw [applyNet_failLogCount net hfail, build_failLogCount]
    omega

/-- C3 witness: a run whose transport always raises still yields the full
stage sequence and one failure log per send. -/
theorem claim3_delivery_failures_swallowed_witness :
    stageEvents (applyNet (fun _ => TransportResult.err "connection refused") 0
        (simulate_build_process ⟨"dapp", "bld0", "i-0"⟩ "bld0.amplifyapp.com"
          AMPLIFY_STAGES (fun _ => 0) (fun _ => []))) =
      [(true, "PROVISIONING"), (false, "PROVISIONING"),
       (true, "DOWNLOAD_SOURCE"), (false, "DOWNLOAD_SOURCE"),
       (true, "BUILD"), (false, "BUILD"),
       (true, "DEPLOY"), (false, "DEPLOY"),
       (true, "VERIFY"), (false, "VERIFY")] ∧
    failLogCount (applyNet (fun _ => TransportResult.err "connection refused") 0
        (simulate_build_process ⟨"dapp", "bld0", "i-0"⟩ "bld0.amplifyapp.com"
          AMPLIFY_STAGES (fun _ => 0) (fun _ => []))) =
      (posts (simulate_build_process ⟨"dapp", "bld0", "i-0"⟩ "bld0.amplifyapp.com"
        AMPLIFY_STAGES (fun _ => 0) (fun _ => []))).length :=
  claim3_delivery_failures_swallowed.2.2
    (fun _ => TransportResult.err "connection refused")
    ⟨"dapp", "bld0", "i-0"⟩ "bld0.amplifyapp.com" (fun _ => 0) (fun _ => [])
    (fun _ => trivial)

/-- C4: when the required webhook URL is empty, each program logs an error and
exits with status 1 before doing any work: `amplify-sim`'s trace contains no
POST at all, and `fake_cryptominer` performs only the error log (no filesystem
setup, no threads, no HTTP). -/
theorem claim4_missing_url_exits :
    (∀ (env : AmpEnv) (fuel : Nat), env.url = "" →
      (amplifyMain env fuel).2 = AmpTerm.exit1 ∧
      posts (amplifyMain env fuel).1 = []) ∧
    (∀ a : MinerArgs, a.slack_webhook_url = "" →
      (minerMain a).2 = MinerTerm.exit1 ∧ (minerMain a).1 = [Op.logLine]) := by
  constructor
  · intro env fuel h
    unfold amplifyMain
    rw [if_pos h]
    exact ⟨rfl, rfl⟩
  · intro a h
    unfold minerMain
    rw [if_pos h]
    exact ⟨rfl, rfl⟩

/-- C4 witness: concrete configurations with the URL unset. -/
theorem claim4_missing_url_exits_witness :
    ((amplifyMain ⟨"", "i-0", "b0", "d0", fun _ => "b", 1, fun _ => 0,
        fun _ _ => 0, fun _ _ => [], fun _ => CycleOutcome.ok, fun _ => 0⟩ 3).2 =
      AmpTerm.exit1 ∧
     posts (amplifyMain ⟨"", "i-0", "b0", "d0", fun _ => "b", 1, fun _ => 0,
        fun _ _ => 0, fun _ _ => [], fun _ => CycleOutcome.ok, fun _ => 0⟩ 3).1 = []) ∧
    ((minerMain ⟨"", 30, "ethash", "0x0", "w", 2, false, 8⟩).2 = MinerTerm.exit1 ∧
     (minerMain ⟨"", 30, "ethash", "0x0", "w", 2, false, 8⟩).1 = [Op.logLine]) :=
  ⟨claim4_missing_url_exits.1 ⟨"", "i-0", "b0", "d0", fun _ => "b", 1, fun _ => 0,
      fun _ _ => 0, fun _ _ => [], fun _ => CycleOutcome.ok, fun _ => 0⟩ 3 rfl,
   claim4_missing_url_exits.2 ⟨"", 30, "ethash", "0x0", "w", 2, false, 8⟩ rfl⟩

/-- `isStartB p` holds of the "Stage started: BUILD" POST. -/
def isStartB (p : Footer × Kind) : Bool :=
  decide (p.2 = Kind.stageStarted "BUILD")

/-- `isEndB p` holds of the "Stage completed: BUILD" POST. -/
def isEndB (p : Footer × Kind) : Bool :=
  decide (p.2 = Kind.stageCompleted "BUILD")

/-- The POSTs emitted strictly between the work stage's "Stage started" and
"Stage completed" notifications: the interim notifications during the work
stage. -/
def interimDuringB (l : List Ev) : List (Footer × Kind) :=
  ((((posts l).dropWhile fun p => !isStartB p).drop 1).takeWhile fun p => !isEndB p)

/-- C7 counterexample: for one cycle over a three-stage list with `BUILD` as
the work stage, the trace contains exactly 6 stage-boundary notifications,
2 interim notifications during the work stage, and exactly 1 cycle-completion
notification — but 10 notifications in total, not 6 + 2 + 1 = 9: the claim's
accounting omits the cycle-start ("Build started") notification that precedes
the stage sequence. -/
theorem claim7_counterexample :
    let tr := simulate_build_process ⟨"dapp7", "bld7", "i-7"⟩
      "bld7.amplifyapp.com" ["A", "BUILD", "C"] (fun _ => 0) (fun _ => [])
    (posts tr).countP (fun p => boundaryKind p.2) = 6 ∧
    (posts tr).countP (fun p => completionKind p.2) = 1 ∧
    (interimDuringB tr).length = 2 ∧
    (posts tr).length = 10 ∧
    ¬((posts tr).length = 6 + (interimDuringB tr).length + 1) := by
  decide

/-- The work-stage POSTs contain no stage-boundary notification. -/
theorem mining_countP_boundary (f : Footer) (d : ℚ) (tks : List Tick) :
    (posts (simulate_mining f d tks)).countP (fun p => boundaryKind p.2) = 0 :=
  List.countP_eq_zero.mpr (by
    intro p hp
    obtain ⟨-, hk⟩ := simulate_mining_posts_mem f d tks p hp
    rcases p with ⟨pf, pk⟩
    cases pk <;> simp_all [miningKind, boundaryKind])

/-- The work-stage POSTs contain no cycle-completion notification. -/
theorem mining_countP_completion (f : Footer) (d : ℚ) (tks : List Tick) :
    (posts (simulate_mining f d tks)).countP (fun p => completionKind p.2) = 0 :=
  List.countP_eq_zero.mpr (by
    intro p hp
    obtain ⟨-, hk⟩ := simulate_mining_posts_mem f d tks p hp
    rcases p with ⟨pf, pk⟩
    cases pk <;> simp_all [miningKind, completionKind])

/-- The work-stage POSTs contain no cycle-start notification. -/
theorem mining_countP_cycleStart (f : Footer) (d : ℚ) (tks : List Tick) :
    (posts (simulate_mining f d tks)).countP (fun p => cycleStartKind p.2) = 0 :=
  List.countP_eq_zero.mpr (by
    intro p hp
    obtain ⟨-, hk⟩ := simulate_mining_posts_mem f d tks p hp
    rcases p with ⟨pf, pk⟩
    cases pk <;> simp_all [miningKind, cycleStartKind])

/-- C7 amended: for one cycle with stage list [A, B, C] and B = "BUILD" the
work stage (whatever the duration draws — the work stage's own draw always
lies in [30, 90], so it cannot be 10), the attempted notifications are:
exactly one cycle-start notification, then the 6 stage-boundary notifications
in order, with every further notification a work-stage (mining) interim
notification emitted strictly between B's boundary events, followed by
exactly one cycle-completion notification in final position. -/
theorem claim7_amended (f : Footer) (domain : String) (durDraws : Nat → Nat)
    (tks : Nat → List Tick) :
    let tr := simulate_build_process f domain ["A", "BUILD", "C"] durDraws tks
    let M := posts (simulate_mining f
      ((stageDuration "BUILD" (durDraws 1) : Nat) : ℚ) (tks 1))
    posts tr =
      (f, Kind.buildStarted f.buildId) ::
      (f, Kind.stageStarted "A") :: (f, Kind.stageCompleted "A") ::
      (f, Kind.stageStarted "BUILD") ::
      (M ++
        ((f, Kind.stageCompleted "BUILD") :: (f, Kind.stageStarted "C") ::
         (f, Kind.stageCompleted "C") ::
         [(f, Kind.buildCompleted f.buildId ("https://" ++ domain))])) ∧
    (∀ p ∈ M, p.1 = f ∧ miningKind p.2 = true) ∧
    (posts tr).countP (fun p => boundaryKind p.2) = 6 ∧
    (posts tr).countP (fun p => completionKind p.2) = 1 ∧
    (posts tr).countP (fun p => cycleStartKind p.2) = 1 := by
  intro tr M
  have htr : posts tr =
      (f, Kind.buildStarted f.buildId) ::
      (f, Kind.stageStarted "A") :: (f, Kind.stageCompleted "A") ::
      (f, Kind.stageStarted "BUILD") ::
      (M ++
        ((f, Kind.stageCompleted "BUILD") :: (f, Kind.stageStarted "C") ::
         (f, Kind.stageCompleted "C") ::
         [(f, Kind.buildCompleted f.buildId ("https://" ++ domain))])) := by
    show posts (simulate_build_process f domain ["A", "BUILD", "C"] durDraws tks) = _
    unfold simulate_build_process
    rw [posts_append, posts_append]
    simp only [stagesLoop, posts_append]
    rw [stageStep_posts, stageStep_posts, stageStep_posts]
    simp [M]
  refine ⟨htr, fun p hp => simulate_mining_posts_mem f _ (tks 1) p hp, ?_, ?_, ?_⟩
  · rw [htr]
    simp only [List.countP_cons, List.countP_append]
    rw [show (M.countP fun p => boundaryKind p.2) = 0 from
      mining_countP_boundary f _ (tks 1)]
    rfl
  · rw [htr]
    simp only [List.countP_cons, List.countP_append]
    rw [show (M.countP fun p => completionKind p.2) = 0 from
      mining_countP_completion f _ (tks 1)]
    rfl
  · rw [htr]
    simp only [List.countP_cons, List.countP_append]
    rw [show (M.countP fun p => cycleStartKind p.2) = 0 from
      mining_countP_cycleStart f _ (tks 1)]
    rfl

/-- C7 amended witness: the amended accounting at a concrete input. -/
theorem claim7_amended_witness :
    let tr := simulate_build_process ⟨"dapp7w", "bld7w", "i-7w"⟩
      "bld7w.amplifyapp.com" ["A", "BUILD", "C"] (fun _ => 0) (fun _ => [])
    let M := posts (simulate_mining ⟨"dapp7w", "bld7w", "i-7w"⟩
      ((stageDuration "BUILD" 0 : Nat) : ℚ) [])
    posts tr =
      (⟨"dapp7w", "bld7w", "i-7w"⟩, Kind.buildStarted "bld7w") ::
      (⟨"dapp7w", "bld7w", "i-7w"⟩, Kind.stageStarted "A") ::
      (⟨"dapp7w", "bld7w", "i-7w"⟩, Kind.stageCompleted "A") ::
      (⟨"dapp7w", "bld7w", "i-7w"⟩, Kind.stageStarted "BUILD") ::
      (M ++
        ((⟨"dapp7w", "bld7w", "i-7w"⟩, Kind.stageCompleted "BUILD") ::
         (⟨"dapp7w", "bld7w", "i-7w"⟩, Kind.stageStarted "C") ::
         (⟨"dapp7w", "bld7w", "i-7w"⟩, Kind.stageCompleted "C") ::
         [(⟨"dapp7w", "bld7w", "i-7w"⟩,
           Kind.buildCompleted "bld7w" ("https://" ++ "bld7w.amplifyapp.com"))])) ∧
    (∀ p ∈ M, p.1 = ⟨"dapp7w", "bld7w", "i-7w"⟩ ∧ miningKind p.2 = true) ∧
    (posts tr).countP (fun p => boundaryKind p.2) = 6 ∧
    (posts tr).countP (fun p => completionKind p.2) = 1 ∧
    (posts tr).countP (fun p => cycleStartKind p.2) = 1 :=
  claim7_amended ⟨"dapp7w", "bld7w", "i-7w"⟩ "bld7w.amplifyapp.com"
    (fun _ => 0) (fun _ => [])

/-- C8: an unexpected exception in cycle `n` is caught by `main`'s top-level
`except Exception` handler: the process returns from `main` (and exits), the
error is reported by exactly one best-effort "Simulation error" notification
which is the final event of the whole trace, and no further cycle runs — at
most `n + 1` cycle-start notifications ever appear, so the failed cycle is not
retried. -/
theorem claim8_exception_caught_once (env : AmpEnv) (n fuel : Nat) (e : String)
    (hurl : env.url ≠ "")
    (hok : ∀ j, j < n → env.outcome j = CycleOutcome.ok)
    (hexc : env.outcome n = CycleOutcome.exc e)
    (hfuel : n < fuel) :
    (amplifyMain env fuel).2 = AmpTerm.returned ∧
    errorPostCount (amplifyMain env fuel).1 = 1 ∧
    (amplifyMain env fuel).1.getLast? =
      some (Ev.post (footerAt env n) (Kind.simulationError e)) ∧
    cycleStartCount (amplifyMain env fuel).1 ≤ n + 1 := by
  obtain ⟨hA, hB, hC, hD⟩ :=
    runCycles_exc env n e hok hexc fuel 0 (Nat.zero_le n) (by omega)
  unfold amplifyMain
  rw [if_neg hurl]
  dsimp only
  refine ⟨hA, ?_, ?_, ?_⟩
  · rw [errorPostCount_append, errorPostCount_append, credEvs_errorPostCount, hB]
    rfl
  · have hne : (runCycles env 0 fuel).1 ≠ [] := by
      intro hnil
      rw [hnil] at hC
      simp at hC
    rw [List.append_assoc, List.getLast?_append_of_ne_nil _
      (by simp [hne] : credEvs env ++ (runCycles env 0 fuel).1 ≠ []),
      List.getLast?_append_of_ne_nil _ hne]
    exact hC
  · rw [cycleStartCount_append, cycleStartCount_append, credEvs_cycleStartCount]
    have hpre : cycleStartCount
        [Ev.log "Starting AWS amplify cryptomining simulation",
         Ev.log "Worker", Ev.log ("Instance ID: " ++ env.instanceId),
         Ev.log ("Build ID: " ++ env.buildId0),
         Ev.log ("App ID: " ++ env.appId)] = 0 := rfl
    omega

/-- C8 witness: a run whose second cycle raises is caught, reported once, and
not retried. -/
theorem claim8_exception_caught_once_witness :
    let env : AmpEnv := ⟨"https://wh.example/h", "i-8", "b8", "d8",
      fun i => "nb" ++ toString i, 1, fun _ => 0, fun _ _ => 0, fun _ _ => [],
      fun i => if i = 1 then CycleOutcome.exc "boom" else CycleOutcome.ok,
      fun _ => 0⟩
    (amplifyMain env 3).2 = AmpTerm.returned ∧
    errorPostCount (amplifyMain env 3).1 = 1 ∧
    (amplifyMain env 3).1.getLast? =
      some (Ev.post (footerAt env 1) (Kind.simulationError "boom")) ∧
    cycleStartCount (amplifyMain env 3).1 ≤ 1 + 1 := by
  exact claim8_exception_caught_once
    ⟨"https://wh.example/h", "i-8", "b8", "d8",
      fun i => "nb" ++ toString i, 1, fun _ => 0, fun _ _ => 0, fun _ _ => [],
      fun i => if i = 1 then CycleOutcome.exc "boom" else CycleOutcome.ok,
      fun _ => 0⟩ 1 3 "boom" (by decide)
    (by
      intro j hj
      have hj0 : j = 0 := by omega
      subst hj0
      rfl)
    rfl (by omega)

/-- C9 counterexample: two runs of `fake_cryptominer` differing only in the
GPU-simulation flag — listed by the claim among the purely cosmetic
configuration values — perform different operation sequences in
`FakeMiner.start` (the GPU branch adds log lines and sleeps), so the claim
as stated is false. -/
theorem claim9_counterexample :
    startOps ⟨"https://hooks.example/x", 30, "ethash", "0x0", "w1", 2, false, 8⟩ ≠
    startOps ⟨"https://hooks.example/x", 30, "ethash", "0x0", "w1", 2, true, 8⟩ := by
  decide

/-- C9 amended: the service/worker names, algorithm label, wallet label, and
intensity are purely cosmetic — two runs agreeing on the webhook URL, beacon
interval, thread count, and GPU flag perform identical operation sequences —
but besides the webhook URL's presence and the beacon-interval magnitude, the
thread count and the GPU-simulation flag also change control flow. -/
theorem claim9_amended (a b : MinerArgs)
    (hurl : a.slack_webhook_url = b.slack_webhook_url)
    (_h2 : a.beacon_interval = b.beacon_interval)
    (hthreads : a.threads = b.threads)
    (hgpu : a.use_gpu = b.use_gpu) :
    startOps a = startOps b ∧ minerMain a = minerMain b := by
  have hstart : startOps a = startOps b := by
    unfold startOps cpuSimOps
    rw [hthreads, hgpu]
  refine ⟨hstart, ?_⟩
  unfold minerMain
  rw [hurl, hstart]

/-- C9 amended witness: two runs differing only in the cosmetic labels. -/
theorem claim9_amended_witness :
    startOps ⟨"https://hooks.example/x", 30, "ethash", "0xAAAA", "w1", 2, false, 8⟩ =
      startOps ⟨"https://hooks.example/x", 30, "randomx", "0xBBBB", "w2", 2, false, 3⟩ ∧
    minerMain ⟨"https://hooks.example/x", 30, "ethash", "0xAAAA", "w1", 2, false, 8⟩ =
      minerMain ⟨"https://hooks.example/x", 30, "randomx", "0xBBBB", "w2", 2, false, 3⟩ :=
  claim9_amended _ _ rfl rfl rfl rfl

/-- C10: across successive cycles only `BUILD_ID` is regenerated: every POST
of every cycle carries the module-load `APP_ID` and `INSTANCE_ID`, the
completion notifications carry the per-cycle build identifiers, yet every
cycle-completion "Build URL" is the same
`https://{first build id}.amplifyapp.com`, because `AMPLIFY_DOMAIN` is
computed once at module load from the first `BUILD_ID` and never updated. -/
theorem claim10_build_url_frozen (env : AmpEnv) (fuel : Nat)
    (hurl : env.url ≠ "") (hok : ∀ i, env.outcome i = CycleOutcome.ok) :
    completedUrls (amplifyMain env fuel).1 =
      List.replicate fuel ("https://" ++ (env.buildId0 ++ ".amplifyapp.com")) ∧
    completedIds (amplifyMain env fuel).1 =
      (List.range fuel).map (fun j => (footerAt env j).buildId) ∧
    ∀ p ∈ posts (amplifyMain env fuel).1,
      p.1.appId = env.appId ∧ p.1.instanceId = env.instanceId := by
  obtain ⟨hA, hB, hC⟩ := runCycles_ok env hok fuel 0
  unfold amplifyMain
  rw [if_neg hurl]
  dsimp only
  refine ⟨?_, ?_, ?_⟩
  · rw [completedUrls_append, completedUrls_append, credEvs_completedUrls, hA]
    rfl
  · rw [completedIds_append, completedIds_append, credEvs_completedIds, hB,
      List.range_eq_range']
    rfl
  · intro p hp
    rw [posts_append, posts_append] at hp
    rcases List.mem_append.mp hp with h | h
    · rcases List.mem_append.mp h with h' | h'
      · simp [posts] at h'
      · rw [credEvs_posts_footer env p h']
        exact ⟨rfl, rfl⟩
    · exact hC p h

/-- C10 witness: two cycles of a concrete run report the same Build URL while
the build identifiers differ. -/
theorem claim10_build_url_frozen_witness :
    let env : AmpEnv := ⟨"https://wh.example/h", "i-10", "b10", "d10",
      fun i => "nb" ++ toString i, 1, fun _ => 0, fun _ _ => 0, fun _ _ => [],
      fun _ => CycleOutcome.ok, fun _ => 0⟩
    completedUrls (amplifyMain env 2).1 =
      List.replicate 2 ("https://" ++ ("b10" ++ ".amplifyapp.com")) ∧
    completedIds (amplifyMain env 2).1 =
      (List.range 2).map (fun j => (footerAt env j).buildId) ∧
    ∀ p ∈ posts (amplifyMain env 2).1,
      p.1.appId = "d10" ∧ p.1.instanceId = "i-10" := by
  exact claim10_build_url_frozen
    ⟨"https://wh.example/h", "i-10", "b10", "d10",
      fun i => "nb" ++ toString i, 1, fun _ => 0, fun _ _ => 0, fun _ _ => [],
      fun _ => CycleOutcome.ok, fun _ => 0⟩ 2 (by decide) (fun _ => rfl)
